import Mathlib

/-!
Verification development for the star-tidy repository classification pipeline.

The Python source is embedded shallowly:

* Python dicts become insertion-ordered association lists (`dictSet` /
  `dictGet?`), matching CPython's insertion-order and in-place-update
  semantics.
* The two external collaborators are oracles: the inference gateway is a
  function `llm : String → Except String String` (an `Except.error` models a
  raised exception; `call_llm` never returns an empty completion but may
  return whitespace), and the repository host gateway is a `GitHubOracle`
  whose mutating calls are recorded in an explicit trace.
* Python floats are embedded as `Rat`; the numeric literals occurring in the
  source (0.1, 0.5) are exact in this embedding.
* `yaml.safe_load` is an oracle producing either a parse failure, a
  non-mapping document, or a key-value mapping with scalar values.  String
  valued fields taken verbatim from the mapping are extracted through
  `pyStr`, the Python rendering of the scalar (for string scalars, which is
  the only case the source's prompts ever promise, this is the identity).
-/

set_option maxRecDepth 4000

namespace StarTidy

/-- Insertion-ordered association-list read: the first (hence, for maps built
with `dictSet`, the only) binding of the key. Models Python `dict.get`. -/
def dictGet? {β : Type} (m : List (String × β)) (k : String) : Option β :=
  (m.find? (fun p => p.1 = k)).map (·.2)

/-- Insertion-ordered association-list write: update the binding in place
when the key is present, append otherwise.  Models Python
`dict.__setitem__` (bindings are unique, insertion order is kept). -/
def dictSet {β : Type} : List (String × β) → String → β → List (String × β)
  | [], k, v => [(k, v)]
  | p :: rest, k, v => if p.1 = k then (k, v) :: rest else p :: dictSet rest k v

/-- Repository record, the fields of the host's starred-repository objects
that the pipeline reads.  A missing or null `description`/`language` is
modelled as the empty string (both are falsy in the source's tests). -/
structure Repo where
  id : Nat
  full_name : String
  name : String := ""
  description : String := ""
  language : String := ""
  topics : List String := []
  stargazers_count : Nat := 0
  deriving Repr, DecidableEq

/-- Remote star-list record (`id`, `name`, `description`); a missing
description is modelled as the empty string, as the source always reads it
via `.get("description", "")`. -/
structure RemoteList where
  id : Nat
  name : String
  description : String := ""
  deriving Repr, DecidableEq

/-- Scalar values of the structured (YAML) payload. -/
inductive YamlScalar where
  | str (s : String)
  | num (q : Rat)
  | bool (b : Bool)
  | null
  deriving Repr, DecidableEq

/-- Python `str()` of a scalar.  For non-integral rationals the exact
float-repr digits are irrelevant to every theorem below; integral floats
render as in Python (`"2.0"`). -/
def pyStr : YamlScalar → String
  | .str s => s
  | .num q => if q.den = 1 then toString q.num ++ ".0" else toString q
  | .bool b => if b then "True" else "False"
  | .null => "None"

/-- Python `float()` coercion of a scalar: numbers and booleans coerce,
`None` raises (`none`), strings go through the numeric-literal reader
`strFloat` supplied as an oracle. -/
def floatOf (strFloat : String → Option Rat) : YamlScalar → Option Rat
  | .num q => some q
  | .bool b => some (if b then 1 else 0)
  | .str s => strFloat s
  | .null => none

/-- Result of `yaml.safe_load`: a key-value mapping or some non-mapping
document. -/
inductive YamlValue where
  | mapping (entries : List (String × YamlScalar))
  | other
  deriving Repr, DecidableEq

/-- Per-repository classification result (`category`, `reason`,
`confidence`). -/
structure ClassificationResult where
  category : String
  reason : String
  confidence : Rat
  deriving Repr, DecidableEq

/-- Per-category operation result dictionary; absent dict keys are `none`. -/
structure OperationResult where
  success : Bool
  action : Option String := none
  list_id : Option Nat := none
  repos_added : Option Nat := none
  repos_count : Option Nat := none
  repos : Option (List String) := none
  enhanced_description : Option String := none
  error : Option String := none
  deriving Repr, DecidableEq

/-- Mutating host-gateway calls, recorded in issue order (an entry records
the attempt, whether or not the host call succeeds). -/
inductive GHCall where
  | createCall (name description : String)
  | updateCall (list_id : Nat) (description : String)
  | addCall (list_id : Nat) (repo_ids : List Nat)
  deriving Repr, DecidableEq

/-- Host-gateway oracle: the responses of the GitHub client methods used by
the manager.  `Except.error` models a raised exception. -/
structure GitHubOracle where
  user_lists : Except String (List RemoteList)
  create_star_list : String → String → Except String RemoteList
  update_star_list : Nat → String → Except String Unit
  add_repos_to_list : Nat → List Nat → Except String Unit

/-- Manager state: the name-keyed list cache plus the trace of mutating host
calls issued so far. -/
structure MgrState where
  cache : List (String × RemoteList)
  trace : List GHCall
  deriving Repr

/-- The manager's `summary_options` flags. -/
structure SummaryOptions where
  auto_complete : Bool := true
  enhance_existing : Bool := true
  use_ai_summary : Bool := true
  include_stats : Bool := true
  deriving Repr, DecidableEq

/-- Prompt text of `RepositoryAnalyzer._build_auto_categorization_prompt`
(the `readme` parameter is accepted by the source but never interpolated). -/
def build_auto_categorization_prompt (name description language : String)
    (topics : List String) : String :=
  "\nPlease analyze this GitHub repository and classify it into an appropriate category.\n\nRepository Information:\n- Name: "
  ++ name
  ++ "\n- Description: "
  ++ (if description = "" then "No description provided" else description)
  ++ "\n- Primary Language: "
  ++ (if language = "" then "Not specified" else language)
  ++ "\n- Topics: "
  ++ (if topics = [] then "None" else String.intercalate ", " topics)
  ++ "\n\nAnalysis Guidelines:\n1. Consider the repository\x27s primary purpose and technology stack\n2. Choose from these common categories or suggest a new one:\n   - Web Development\n   - Mobile Development  \n   - Data Science & ML\n   - DevOps & Infrastructure\n   - UI/UX & Design\n   - Backend & APIs\n   - Frontend Frameworks\n   - Database & Storage\n   - Security & Privacy\n   - Game Development\n   - Programming Languages\n   - Development Tools\n   - Documentation & Learning\n   - Open Source Libraries\n   - System Programming\n   - Cloud & Serverless\n\n3. If none of the above categories fit well, suggest a specific category name\n\nPlease respond in YAML format:\n```yaml\ncategory: \"Category Name\"\nreason: \"Brief explanation for this categorization\"\nconfidence: 0.9\n```\n\nThe confidence should be between 0.0 and 1.0, where 1.0 means very confident.\n"

/-- Prompt text of `RepositoryAnalyzer._build_existing_categories_prompt`. -/
def build_existing_categories_prompt (name description language : String)
    (topics : List String) (existing_categories : List String) : String :=
  "\nPlease analyze this GitHub repository and classify it into one of the existing star list categories.\n\nRepository Information:\n- Name: "
  ++ name
  ++ "\n- Description: "
  ++ (if description = "" then "No description provided" else description)
  ++ "\n- Primary Language: "
  ++ (if language = "" then "Not specified" else language)
  ++ "\n- Topics: "
  ++ (if topics = [] then "None" else String.intercalate ", " topics)
  ++ "\n\nExisting Star List Categories:\n"
  ++ String.intercalate "\n" (existing_categories.map (fun cat => "  - " ++ cat))
  ++ "\n\nInstructions:\n1. Choose the MOST appropriate category from the existing list above\n2. If the repository doesn\x27t fit any existing category well, choose \"Uncategorized\"\n3. Provide a clear reason for your choice\n\nPlease respond in YAML format:\n```yaml\ncategory: \"Exact Category Name from the list above\"\nreason: \"Brief explanation for this categorization\"\nconfidence: 0.9\n```\n\nThe confidence should be between 0.0 and 1.0, where 1.0 means very confident.\n"

/-- ASCII whitespace recognized by Python `str.strip()` (space, tab,
newline, carriage return, vertical tab, form feed). -/
def isPySpace (c : Char) : Bool :=
  c = ' ' ∨ c = '\t' ∨ c = '\n' ∨ c = '\r' ∨ c = '\x0b' ∨ c = '\x0c'

/-- Python `str.strip()` with no argument: drop leading and trailing
whitespace. -/
def pyStrip (s : String) : String :=
  String.mk (((s.data.dropWhile isPySpace).reverse.dropWhile isPySpace).reverse)

/-- Fenced-payload extraction step of `RepositoryAnalyzer._parse_ai_response`:
take the text after the first occurrence of three-backticks-`yaml` up to the
next fence, else the content of the first fenced block, else the whole
stripped response.  Python `sep in s` and `s.split(sep)[i]` are rendered via
`String.splitOn` (identical non-overlapping left-to-right occurrence
semantics); Python `str.strip` is rendered as `pyStrip`. -/
def extract_yaml_part (response : String) : String :=
  if (response.splitOn "```yaml").length > 1 then
    pyStrip ((((response.splitOn "```yaml").getD 1 "").splitOn "```").getD 0 "")
  else if (response.splitOn "```").length > 1 then
    pyStrip ((((response.splitOn "```").getD 1 "").splitOn "```").getD 0 "")
  else
    pyStrip response

/-- Sentinel classification built by the `except` arm of
`_parse_ai_response`; `e` is the text of the caught exception. -/
def parseFailure (e : String) : ClassificationResult :=
  { category := "Uncategorized"
    reason := "Failed to parse AI response: " ++ e
    confidence := 0.1 }

/-- Modelled text of the exception raised by CPython when `float()` is
applied to a non-coercible value (the exact wording varies by value and is
never inspected by the pipeline). -/
def floatErrorText : String := "could not convert value to float"

/-- Shallow embedding of `RepositoryAnalyzer._parse_ai_response`.
`safeLoad` is the `yaml.safe_load` oracle (`Except.error` models a raised
`YAMLError`), `strFloat` the numeric-literal reader used by `float()` on
string scalars. -/
def parse_ai_response (safeLoad : String → Except String YamlValue)
    (strFloat : String → Option Rat) (response : String) :
    ClassificationResult :=
  match safeLoad (extract_yaml_part response) with
  | .error e => parseFailure e
  | .ok .other => parseFailure "Response is not a valid dictionary"
  | .ok (.mapping result) =>
    match dictGet? result "category" with
    | none => parseFailure "Missing \x27category\x27 field"
    | some cat =>
      match floatOf strFloat ((dictGet? result "confidence").getD (.num 0.5)) with
      | none => parseFailure floatErrorText
      | some c =>
        { category := pyStr cat
          reason := pyStr ((dictGet? result "reason").getD (.str "No reason provided"))
          confidence := c }

/-- Mode-dependent prompt choice of `RepositoryAnalyzer.analyze_repository`
(lines 23-30): the existing-categories prompt in `existing_lists` mode with
a non-empty category context, the auto-categorization prompt otherwise. -/
def classifier_prompt (existing_categories : List String) (mode : String)
    (repo : Repo) : String :=
  if mode = "existing_lists" ∧ existing_categories ≠ [] then
    build_existing_categories_prompt repo.name repo.description
      repo.language repo.topics existing_categories
  else
    build_auto_categorization_prompt repo.name repo.description
      repo.language repo.topics

/-- Shallow embedding of `RepositoryAnalyzer.analyze_repository`: build the
mode-dependent prompt, issue one inference call, parse the response; any
raised failure of the call is caught into the sentinel result. -/
def analyze_repository (llm : String → Except String String)
    (safeLoad : String → Except String YamlValue)
    (strFloat : String → Option Rat)
    (existing_categories : List String) (mode : String) (repo : Repo) :
    ClassificationResult :=
  match llm (classifier_prompt existing_categories mode repo) with
  | .ok response => parse_ai_response safeLoad strFloat response
  | .error e =>
    { category := "Uncategorized"
      reason := "Analysis failed: " ++ e
      confidence := 0.1 }

/-- Shallow embedding of `AnalyzeRepositoriesNode.prep`: drop repositories
whose `full_name` appears in `config.exclude_repos`.  The returned list is
exactly the batch handed to `exec`, i.e. the repositories for which one
Classifier invocation occurs. -/
def analyze_prep (starred_repos : List Repo) (exclude_repos : List String) :
    List Repo :=
  starred_repos.filter (fun repo => ¬ exclude_repos.contains repo.full_name)

/-- Shallow embedding of `AnalyzeRepositoriesNode.exec` mapped over the
batch and folded by `post` into the `full_name`-keyed classification
dictionary.  (`exec`'s own `try/except` arm is unreachable: the analyzer
already catches every failure.) -/
def classification_results_of (llm : String → Except String String)
    (safeLoad : String → Except String YamlValue)
    (strFloat : String → Option Rat)
    (existing_categories : List String) (mode : String)
    (starred_repos : List Repo) (exclude_repos : List String) :
    List (String × ClassificationResult) :=
  (analyze_prep starred_repos exclude_repos).foldl
    (fun m repo =>
      dictSet m repo.full_name
        (analyze_repository llm safeLoad strFloat existing_categories mode repo))
    []

/-- Escape one character the way CPython's `repr` does for the printable
strings this pipeline handles (backslash, the active quote, newline,
carriage return, tab). -/
def pyEscChar (quote : Char) (c : Char) : String :=
  if c = '\\' then "\\\\"
  else if c = quote then "\\" ++ String.singleton quote
  else if c = '\n' then "\\n"
  else if c = '\r' then "\\r"
  else if c = '\t' then "\\t"
  else String.singleton c

/-- Python `repr` of a string: single quotes, switching to double quotes
when the string holds a single quote but no double quote. -/
def pyReprStr (s : String) : String :=
  let q : Char := if s.contains '\x27' ∧ ¬ s.contains '\"' then '\"' else '\x27'
  String.singleton q ++ String.join (s.data.map (pyEscChar q)) ++ String.singleton q

/-- Python `repr` of a list of strings. -/
def pyReprStrList (l : List String) : String :=
  "[" ++ String.intercalate ", " (l.map pyReprStr) ++ "]"

/-- Python `repr` of the per-repository info dict built inside
`StarListManager.generate_ai_summary` (keys in insertion order). -/
def reprRepoInfoDict (repo : Repo) : String :=
  "\x7b\x27name\x27: " ++ pyReprStr repo.name
  ++ ", \x27description\x27: " ++ pyReprStr repo.description
  ++ ", \x27language\x27: " ++ pyReprStr repo.language
  ++ ", \x27topics\x27: " ++ pyReprStrList repo.topics
  ++ ", \x27stars\x27: " ++ toString repo.stargazers_count
  ++ "\x7d"

/-- Increment a counting dict entry, inserting the key at the end on first
sight (Python `d[k] = d.get(k, 0) + 1`). -/
def bumpCount (m : List (String × Nat)) (k : String) : List (String × Nat) :=
  dictSet m k ((dictGet? m k).getD 0 + 1)

/-- Stable insertion keeping the accumulator sorted by descending count:
a new entry goes after every entry with a greater-or-equal count. -/
def insertCountDesc (x : String × Nat) :
    List (String × Nat) → List (String × Nat)
  | [] => [x]
  | y :: ys => if x.2 ≤ y.2 then y :: insertCountDesc x ys else x :: y :: ys

/-- Python `sorted(items, key=lambda x: x[1], reverse=True)`: stable
descending sort by count (ties keep first-encountered order). -/
def sortCountDesc (l : List (String × Nat)) : List (String × Nat) :=
  l.foldl (fun acc x => insertCountDesc x acc) []

/-- Statistics dict built by `StarListManager._get_repository_stats`. -/
structure RepoStats where
  count : Nat
  languages : List (String × Nat)
  total_stars : Nat
  topics : List (String × Nat)
  top_languages : List (String × Nat)
  top_topics : List (String × Nat)
  deriving Repr, DecidableEq

/-- Shallow embedding of `StarListManager._get_repository_stats`. -/
def get_repository_stats (repos : List Repo) : RepoStats :=
  let base := repos.foldl
    (fun (acc : RepoStats) repo =>
      let acc :=
        if repo.language ≠ "" then
          { acc with languages := bumpCount acc.languages repo.language }
        else acc
      let acc := { acc with total_stars := acc.total_stars + repo.stargazers_count }
      { acc with topics := repo.topics.foldl (fun t topic => bumpCount t topic) acc.topics })
    { count := repos.length, languages := [], total_stars := 0, topics := [],
      top_languages := [], top_topics := [] }
  { base with
    top_languages := (sortCountDesc base.languages).take 3
    top_topics := (sortCountDesc base.topics).take 5 }

/-- Python `repr` of a `str -> int` counting dict. -/
def reprCountDict (m : List (String × Nat)) : String :=
  "\x7b"
  ++ String.intercalate ", " (m.map (fun p => pyReprStr p.1 ++ ": " ++ toString p.2))
  ++ "\x7d"

/-- Python `repr` of a list of `(str, int)` tuples. -/
def reprPairList (m : List (String × Nat)) : String :=
  "["
  ++ String.intercalate ", "
      (m.map (fun p => "(" ++ pyReprStr p.1 ++ ", " ++ toString p.2 ++ ")"))
  ++ "]"

/-- Python `repr` of the stats dict (keys in insertion order: `count`,
`languages`, `total_stars`, `topics`, `top_languages`, `top_topics`). -/
def reprStats (s : RepoStats) : String :=
  "\x7b\x27count\x27: " ++ toString s.count
  ++ ", \x27languages\x27: " ++ reprCountDict s.languages
  ++ ", \x27total_stars\x27: " ++ toString s.total_stars
  ++ ", \x27topics\x27: " ++ reprCountDict s.topics
  ++ ", \x27top_languages\x27: " ++ reprPairList s.top_languages
  ++ ", \x27top_topics\x27: " ++ reprPairList s.top_topics
  ++ "\x7d"

/-- Split a digit list into chunks of three (used least-significant first). -/
def chunk3 : List Char → List (List Char)
  | a :: b :: c :: rest => [a, b, c] :: chunk3 rest
  | [] => []
  | l => [l]

/-- Python `f"{n:,}"` for a natural number: decimal digits grouped by
thousands with commas. -/
def commaGroup (n : Nat) : String :=
  String.intercalate ","
    (((chunk3 (toString n).data.reverse).map (fun l => String.mk l.reverse)).reverse)

/-- Shallow embedding of `StarListManager._generate_basic_description`. -/
def generate_basic_description (opts : SummaryOptions) (category : String)
    (repos : List Repo) : String :=
  let repo_count := repos.length
  let languages := repos.foldl
    (fun m repo => if repo.language ≠ "" then bumpCount m repo.language else m) []
  let top_languages := (sortCountDesc languages).take 3
  let lang_text := String.intercalate ", " (top_languages.map (·.1))
  let description :=
    "Auto-categorized " ++ category ++ " repositories (" ++ toString repo_count ++ " repos)"
  let description :=
    if lang_text ≠ "" then description ++ " - Main languages: " ++ lang_text
    else description
  if opts.include_stats then
    let total_stars := repos.foldl (fun acc repo => acc + repo.stargazers_count) 0
    if total_stars > 0 then description ++ " - Total stars: " ++ commaGroup total_stars
    else description
  else description

/-- Prompt text built inside `StarListManager.generate_ai_summary`
(interpolating Python's `str` of the `repo_info` list of dicts). -/
def ai_summary_prompt (category : String) (repos : List Repo) : String :=
  "\nCreate a concise and informative description for a GitHub star list named \""
  ++ category
  ++ "\".\n\nRepository samples from this category:\n["
  ++ String.intercalate ", " ((repos.take 5).map reprRepoInfoDict)
  ++ "]\n\nTotal repositories in this category: "
  ++ toString repos.length
  ++ "\n\nGenerate a description that:\n1. Explains what this category contains\n2. Highlights the main technologies/languages\n3. Mentions the purpose or use case\n4. Keeps it under 100 words\n5. Sounds professional and helpful\n\nDescription:"

/-- Shallow embedding of `StarListManager.generate_ai_summary`. -/
def generate_ai_summary (llm : String → Except String String)
    (opts : SummaryOptions) (category : String) (repos : List Repo) : String :=
  if ¬ opts.use_ai_summary then generate_basic_description opts category repos
  else
    match llm (ai_summary_prompt category repos) with
    | .ok ai_description => pyStrip ai_description
    | .error _ => generate_basic_description opts category repos

/-- Prompt text built inside `StarListManager._enhance_existing_description`
(interpolating Python's `str` of the stats dict). -/
def enhance_prompt (existing_desc category : String) (repos : List Repo) : String :=
  "\nEnhance this existing GitHub star list description with updated information:\n\nCurrent description: \""
  ++ existing_desc
  ++ "\"\nCategory: "
  ++ category
  ++ "\nRepository count: "
  ++ toString repos.length
  ++ "\nRepository statistics: "
  ++ reprStats (get_repository_stats repos)
  ++ "\n\nEnhance the description by:\n1. Keeping the original tone and style\n2. Adding relevant statistics if missing\n3. Updating outdated information\n4. Ensuring accuracy and completeness\n5. Keeping it concise and professional\n\nEnhanced description:"

/-- Shallow embedding of `StarListManager._enhance_existing_description`:
a failed gateway call keeps the existing description. -/
def enhance_existing_description (llm : String → Except String String)
    (opts : SummaryOptions) (existing_desc category : String)
    (repos : List Repo) : String :=
  if ¬ opts.use_ai_summary then existing_desc
  else
    match llm (enhance_prompt existing_desc category repos) with
    | .ok enhanced => pyStrip enhanced
    | .error _ => existing_desc

/-- Summary decided for one category by the branch ladder of
`StarListManager.complete_list_summaries` (the value written to
`summaries[category]`; no branch reads the summaries dict). -/
def decide_summary (llm : String → Except String String)
    (opts : SummaryOptions) (existing_lists : List RemoteList)
    (category : String) (repos : List Repo) : String :=
  match existing_lists.find? (fun lst => lst.name = category) with
  | some existing_list =>
    let existing_desc := existing_list.description
    if existing_desc = "" ∧ opts.auto_complete then
      generate_ai_summary llm opts category repos
    else if existing_desc ≠ "" ∧ opts.enhance_existing then
      let enhanced := enhance_existing_description llm opts existing_desc category repos
      if enhanced ≠ existing_desc then enhanced else existing_desc
    else existing_desc
  | none => generate_ai_summary llm opts category repos

/-- Shallow embedding of `StarListManager.complete_list_summaries`. -/
def complete_list_summaries (llm : String → Except String String)
    (opts : SummaryOptions) (existing_lists : List RemoteList)
    (repos_by_category : List (String × List Repo)) : List (String × String) :=
  repos_by_category.foldl
    (fun summaries p => dictSet summaries p.1 (decide_summary llm opts existing_lists p.1 p.2))
    []

/-- Shallow embedding of `StarListManager._create_new_list`: issue the
create call, attach the repository ids when any, then insert the returned
list into the cache; a raised host failure propagates (`Except.error`) with
the calls already issued kept in the trace. -/
def create_new_list (gh : GitHubOracle) (st : MgrState)
    (list_name description : String) (repos_to_add : List Repo) :
    Except String OperationResult × MgrState :=
  let st1 : MgrState := { st with trace := st.trace ++ [.createCall list_name description] }
  match gh.create_star_list list_name description with
  | .error e => (.error e, st1)
  | .ok new_list =>
    let list_id := new_list.id
    let addStep : Except String Unit × MgrState :=
      if repos_to_add ≠ [] then
        let repo_ids := repos_to_add.map (·.id)
        ((gh.add_repos_to_list list_id repo_ids),
         { st1 with trace := st1.trace ++ [.addCall list_id repo_ids] })
      else (.ok (), st1)
    match addStep with
    | (.error e, st2) => (.error e, st2)
    | (.ok _, st2) =>
      (.ok { success := true, action := some "created", list_id := some list_id,
             repos_added := some repos_to_add.length },
       { st2 with cache := dictSet st2.cache list_name new_list })

/-- Shallow embedding of `StarListManager._update_existing_list`: push the
description only when it is non-empty and differs from the cached one, then
attach the repository ids when any (additive membership). -/
def update_existing_list (gh : GitHubOracle) (st : MgrState)
    (existing_list : RemoteList) (description : String)
    (repos_to_add : List Repo) : Except String OperationResult × MgrState :=
  let list_id := existing_list.id
  let updStep : Except String Unit × MgrState :=
    if description ≠ "" ∧ description ≠ existing_list.description then
      ((gh.update_star_list list_id description),
       { st with trace := st.trace ++ [.updateCall list_id description] })
    else (.ok (), st)
  match updStep with
  | (.error e, st1) => (.error e, st1)
  | (.ok _, st1) =>
    if repos_to_add ≠ [] then
      let repo_ids := repos_to_add.map (·.id)
      let st2 := { st1 with trace := st1.trace ++ [.addCall list_id repo_ids] }
      match gh.add_repos_to_list list_id repo_ids with
      | .error e => (.error e, st2)
      | .ok _ =>
        (.ok { success := true, action := some "updated", list_id := some list_id,
               repos_added := some repo_ids.length }, st2)
    else
      (.ok { success := true, action := some "updated", list_id := some list_id,
             repos_added := some 0 }, st1)

/-- Shallow embedding of `StarListManager.create_or_update_list`: dispatch
on the list cache; any raised failure of the branch is caught into a
`success = false` result. -/
def create_or_update_list (gh : GitHubOracle) (st : MgrState)
    (list_name description : String) (repos_to_add : List Repo) :
    OperationResult × MgrState :=
  match dictGet? st.cache list_name with
  | some existing_list =>
    match update_existing_list gh st existing_list description repos_to_add with
    | (.ok r, st1) => (r, st1)
    | (.error e, st1) => ({ success := false, error := some e }, st1)
  | none =>
    match create_new_list gh st list_name description repos_to_add with
    | (.ok r, st1) => (r, st1)
    | (.error e, st1) => ({ success := false, error := some e }, st1)

/-- Shallow embedding of `StarListManager.organize_repos_by_category`:
group the full repository records by classified category, dropping
classification entries whose repository is absent from the starred list. -/
def organize_repos_by_category
    (classification_results : List (String × ClassificationResult))
    (starred_repos : List Repo) : List (String × List Repo) :=
  let repo_map := starred_repos.foldl (fun m repo => dictSet m repo.full_name repo) []
  classification_results.foldl
    (fun organized p =>
      match dictGet? repo_map p.1 with
      | some repo =>
        dictSet organized p.2.category
          ((dictGet? organized p.2.category).getD [] ++ [repo])
      | none => organized)
    []

/-- Name-keyed list cache built by `StarListManager.get_existing_lists`. -/
def list_cache_of (lists : List RemoteList) : List (String × RemoteList) :=
  lists.foldl (fun c lst => dictSet c lst.name lst) []

/-- One iteration of the per-category loop of `ManageStarListsNode.exec`
(lines 199-224): skip empty groups; in dry-run record the would-be
operation without touching the manager; otherwise run
`create_or_update_list` and stamp the decided description onto the result. -/
def manage_step (gh : GitHubOracle) (enhanced_summaries : List (String × String))
    (dry_run : Bool) (acc : List (String × OperationResult) × MgrState)
    (p : String × List Repo) : List (String × OperationResult) × MgrState :=
  let category := p.1
  let repos := p.2
  if repos = [] then acc
  else
    let enhanced_description := (dictGet? enhanced_summaries category).getD ""
    if dry_run then
      (dictSet acc.1 category
        { success := true, action := some "dry_run",
          repos_count := some repos.length,
          repos := some (repos.map (·.full_name)),
          enhanced_description := some enhanced_description }, acc.2)
    else
      let step := create_or_update_list gh acc.2 category enhanced_description repos
      (dictSet acc.1 category { step.1 with enhanced_description := some enhanced_description },
       step.2)

/-- Shallow embedding of `ManageStarListsNode.exec`: fetch existing lists
(a failed fetch degrades to the empty list and an empty cache), group by
category, decide the summaries, then fold the per-category loop. -/
def manage_exec (gh : GitHubOracle) (llm : String → Except String String)
    (opts : SummaryOptions)
    (classification_results : List (String × ClassificationResult))
    (starred_repos : List Repo) (dry_run : Bool) :
    List (String × OperationResult) × MgrState :=
  let existing_lists := match gh.user_lists with
    | .ok lists => lists
    | .error _ => []
  let st0 : MgrState := { cache := list_cache_of existing_lists, trace := [] }
  let organized := organize_repos_by_category classification_results starred_repos
  let enhanced_summaries := complete_list_summaries llm opts existing_lists organized
  organized.foldl (manage_step gh enhanced_summaries dry_run) ([], st0)

/-- Payload-selection policy exactly as the specification words it: the
block after the first tag `yaml` fence when present, otherwise the content
of the first fenced block, otherwise the entire stripped response.  This is
the specification-side counterpart of the source-derived
`extract_yaml_part`. -/
def selectPayloadSpec (response : String) : String :=
  match response.splitOn "```yaml" with
  | _ :: afterTag :: _ => pyStrip ((afterTag.splitOn "```").headD "")
  | _ =>
    match response.splitOn "```" with
    | _ :: inner :: _ => pyStrip ((inner.splitOn "```").headD "")
    | _ => pyStrip response

/-- Recognizer for `update_list` host calls in a trace. -/
def isUpdateCall : GHCall → Bool
  | .updateCall _ _ => true
  | _ => false

/-- Recognizer for `create_list` host calls in a trace. -/
def isCreateCall : GHCall → Bool
  | .createCall _ _ => true
  | _ => false

theorem dictGet_nil {β : Type} (k : String) :
    dictGet? ([] : List (String × β)) k = none := rfl

theorem dictGet_cons {β : Type} (p : String × β) (m : List (String × β))
    (k : String) :
    dictGet? (p :: m) k = if p.1 = k then some p.2 else dictGet? m k := by
  by_cases h : p.1 = k <;> simp [dictGet?, List.find?_cons, h]

theorem dictGet_dictSet_self {β : Type} (m : List (String × β)) (k : String)
    (v : β) : dictGet? (dictSet m k v) k = some v := by
  induction m with
  | nil => simp [dictSet, dictGet?]
  | cons p rest ih =>
    by_cases h : p.1 = k
    · simp [dictSet, h, dictGet_cons]
    · simp [dictSet, h, dictGet_cons, ih]

theorem dictGet_dictSet_ne {β : Type} (m : List (String × β)) (k k' : String)
    (v : β) (h : k' ≠ k) :
    dictGet? (dictSet m k v) k' = dictGet? m k' := by
  have hk : k ≠ k' := fun hh => h hh.symm
  induction m with
  | nil => simp [dictSet, dictGet_cons, hk]
  | cons p rest ih =>
    by_cases hp : p.1 = k
    · simp [dictSet, hp, dictGet_cons, hk]
    · simp [dictSet, hp, dictGet_cons, ih]

theorem mem_dictSet {β : Type} {m : List (String × β)} {k : String} {v : β}
    {p : String × β} (hp : p ∈ dictSet m k v) : p ∈ m ∨ p = (k, v) := by
  induction m with
  | nil => simpa [dictSet] using hp
  | cons q rest ih =>
    by_cases hq : q.1 = k
    · rw [dictSet, if_pos hq] at hp
      rcases List.mem_cons.mp hp with h | h
      · exact Or.inr h
      · exact Or.inl (List.mem_cons_of_mem _ h)
    · rw [dictSet, if_neg hq] at hp
      rcases List.mem_cons.mp hp with h | h
      · exact Or.inl (h ▸ List.mem_cons_self _ _)
      · rcases ih h with h1 | h1
        · exact Or.inl (List.mem_cons_of_mem _ h1)
        · exact Or.inr h1

theorem dictGet_mem {β : Type} {m : List (String × β)} {k : String} {v : β}
    (h : dictGet? m k = some v) : (k, v) ∈ m := by
  unfold dictGet? at h
  rcases Option.map_eq_some'.mp h with ⟨p, hfind, hv⟩
  have hmem := List.mem_of_find?_eq_some hfind
  have hkey : p.1 = k := by simpa using List.find?_some hfind
  have : p = (k, v) := by
    cases p
    simp only at hkey hv
    rw [hkey, hv]
  exact this ▸ hmem

theorem dictGet_eq_none {β : Type} {m : List (String × β)} {k : String}
    (h : ∀ p ∈ m, p.1 ≠ k) : dictGet? m k = none := by
  unfold dictGet?
  rw [List.find?_eq_none.mpr]
  · rfl
  · intro p hp
    simpa using h p hp

theorem keys_dictSet {β : Type} (m : List (String × β)) (k : String) (v : β)
    {x : String} (hx : x ∈ (dictSet m k v).map Prod.fst) :
    x ∈ m.map Prod.fst ∨ x = k := by
  rcases List.mem_map.mp hx with ⟨p, hp, hpx⟩
  rcases mem_dictSet hp with h | h
  · exact Or.inl (hpx ▸ List.mem_map_of_mem _ h)
  · right
    rw [← hpx, h]

theorem nodup_keys_dictSet {β : Type} {m : List (String × β)} {k : String}
    {v : β} (h : (m.map Prod.fst).Nodup) :
    ((dictSet m k v).map Prod.fst).Nodup := by
  induction m with
  | nil => simp [dictSet]
  | cons p rest ih =>
    by_cases hp : p.1 = k
    · rw [dictSet, if_pos hp]
      simpa [hp] using h
    · rw [dictSet, if_neg hp]
      simp only [List.map_cons, List.nodup_cons] at h ⊢
      refine ⟨fun hc => ?_, ih h.2⟩
      rcases keys_dictSet rest k v hc with h1 | h1
      · exact h.1 h1
      · exact hp h1

theorem foldl_dictSet_get_ne {α β : Type} (κ : α → String) (w : α → β)
    (L : List α) (acc : List (String × β)) (k : String)
    (h : ∀ a ∈ L, κ a ≠ k) :
    dictGet? (L.foldl (fun m a => dictSet m (κ a) (w a)) acc) k
      = dictGet? acc k := by
  induction L generalizing acc with
  | nil => rfl
  | cons hd tl ih =>
    rw [List.foldl_cons,
      ih _ (fun a ha => h a (List.mem_cons_of_mem _ ha)),
      dictGet_dictSet_ne _ _ _ _ (fun hh => h hd (List.mem_cons_self _ _) hh.symm)]

theorem foldl_dictSet_get_mem {α β : Type} (κ : α → String) (w : α → β)
    (L : List α) (acc : List (String × β)) (a : α)
    (hnd : (L.map κ).Nodup) (ha : a ∈ L) :
    dictGet? (L.foldl (fun m x => dictSet m (κ x) (w x)) acc) (κ a)
      = some (w a) := by
  induction L generalizing acc with
  | nil => cases ha
  | cons hd tl ih =>
    rw [List.foldl_cons]
    simp only [List.map_cons, List.nodup_cons] at hnd
    rcases List.mem_cons.mp ha with rfl | hmem
    · have hne : ∀ x ∈ tl, κ x ≠ κ a := by
        intro x hx hc
        exact hnd.1 (hc ▸ List.mem_map_of_mem κ hx)
      rw [foldl_dictSet_get_ne κ w tl _ (κ a) hne, dictGet_dictSet_self]
    · exact ih _ hnd.2 hmem

theorem mem_foldl_dictSet {α β : Type} (κ : α → String) (w : α → β)
    (L : List α) (acc : List (String × β)) (p : String × β)
    (hp : p ∈ L.foldl (fun m a => dictSet m (κ a) (w a)) acc) :
    p ∈ acc ∨ ∃ a ∈ L, κ a = p.1 := by
  induction L generalizing acc with
  | nil => exact Or.inl hp
  | cons hd tl ih =>
    rw [List.foldl_cons] at hp
    rcases ih _ hp with h | ⟨a, ha, hak⟩
    · rcases mem_dictSet h with h1 | h1
      · exact Or.inl h1
      · exact Or.inr ⟨hd, List.mem_cons_self _ _, by rw [h1]⟩
    · exact Or.inr ⟨a, List.mem_cons_of_mem _ ha, hak⟩

theorem length_gt_one_shape {α : Type} (l : List α) (h : l.length > 1) :
    ∃ a b t, l = a :: b :: t := by
  match l with
  | [] => simp at h
  | [a] => simp at h
  | a :: b :: t => exact ⟨a, b, t, rfl⟩

theorem getElem0_eq_headD {α : Type} (l : List α) (d : α) :
    l.getD 0 d = l.headD d := by
  cases l <;> rfl

theorem getElem?_zero_eq_head? {α : Type} (l : List α) : l[0]? = l.head? := by
  cases l <;> simp

/-- C5: the response parser selects the block after the first three-backtick
`yaml` tag if present, otherwise the content of the first fenced block,
otherwise the entire stripped response (clause 1, equality with the
specification-worded policy); parsing the payload fails into the sentinel
path when the payload is not a mapping (clause 2) or lacks the key
`category` (clause 3); otherwise the reason defaults to
`"No reason provided"` (clause 4) and the confidence defaults to `0.5`,
coerced to floating point (clause 5). -/
theorem c5_parse_policy :
    (∀ response : String,
      extract_yaml_part response = selectPayloadSpec response)
    ∧ (∀ (safeLoad : String → Except String YamlValue)
        (strFloat : String → Option Rat) (response : String),
        safeLoad (extract_yaml_part response) = .ok .other →
        (parse_ai_response safeLoad strFloat response).category = "Uncategorized"
        ∧ (parse_ai_response safeLoad strFloat response).confidence = 0.1)
    ∧ (∀ (safeLoad : String → Except String YamlValue)
        (strFloat : String → Option Rat) (response : String)
        (m : List (String × YamlScalar)),
        safeLoad (extract_yaml_part response) = .ok (.mapping m) →
        dictGet? m "category" = none →
        (parse_ai_response safeLoad strFloat response).category = "Uncategorized"
        ∧ (parse_ai_response safeLoad strFloat response).confidence = 0.1)
    ∧ (∀ (safeLoad : String → Except String YamlValue)
        (strFloat : String → Option Rat) (response : String)
        (m : List (String × YamlScalar)) (cat : YamlScalar) (q : Rat),
        safeLoad (extract_yaml_part response) = .ok (.mapping m) →
        dictGet? m "category" = some cat →
        dictGet? m "reason" = none →
        floatOf strFloat ((dictGet? m "confidence").getD (.num 0.5)) = some q →
        (parse_ai_response safeLoad strFloat response).reason = "No reason provided")
    ∧ (∀ (safeLoad : String → Except String YamlValue)
        (strFloat : String → Option Rat) (response : String)
        (m : List (String × YamlScalar)) (cat : YamlScalar),
        safeLoad (extract_yaml_part response) = .ok (.mapping m) →
        dictGet? m "category" = some cat →
        dictGet? m "confidence" = none →
        (parse_ai_response safeLoad strFloat response).confidence = 0.5) := by
  refine ⟨?_, ?_, ?_, ?_, ?_⟩
  · intro response
    unfold extract_yaml_part selectPayloadSpec
    by_cases h1 : (response.splitOn "```yaml").length > 1
    · rcases length_gt_one_shape _ h1 with ⟨a, b, t, he⟩
      rw [he] at h1
      simp [he, h1, getElem0_eq_headD, getElem?_zero_eq_head?]
    · rw [if_neg h1]
      have hshape : response.splitOn "```yaml" = []
          ∨ ∃ a, response.splitOn "```yaml" = [a] := by
        rcases hl : response.splitOn "```yaml" with _ | ⟨a, _ | ⟨b, t⟩⟩
        · exact Or.inl rfl
        · exact Or.inr ⟨a, rfl⟩
        · rw [hl] at h1
          simp only [List.length_cons] at h1
          omega
      by_cases h2 : (response.splitOn "```").length > 1
      · rcases length_gt_one_shape _ h2 with ⟨c, d, u, he2⟩
        rw [if_pos h2, he2]
        rcases hshape with hs | ⟨a, hs⟩ <;>
          simp [hs, he2, getElem0_eq_headD, getElem?_zero_eq_head?]
      · rw [if_neg h2]
        have hshape2 : response.splitOn "```" = []
            ∨ ∃ c, response.splitOn "```" = [c] := by
          rcases hl : response.splitOn "```" with _ | ⟨c, _ | ⟨d, u⟩⟩
          · exact Or.inl rfl
          · exact Or.inr ⟨c, rfl⟩
          · rw [hl] at h2
            simp only [List.length_cons] at h2
            omega
        rcases hshape with hs | ⟨a, hs⟩ <;>
          rcases hshape2 with hs2 | ⟨c, hs2⟩ <;> simp [hs, hs2]
  · intro safeLoad strFloat response h
    simp [parse_ai_response, h, parseFailure]
  · intro safeLoad strFloat response m h hc
    simp [parse_ai_response, h, hc, parseFailure]
  · intro safeLoad strFloat response m cat q h hc hr hq
    simp [parse_ai_response, h, hc, hr, hq, pyStr]
  · intro safeLoad strFloat response m cat h hc hf
    simp [parse_ai_response, h, hc, hf, floatOf]

/-- Witness for C5 at concrete inputs: a tagged fenced response selects the
tagged block; a non-mapping payload and a mapping without `category` fail
into the sentinel; with `category` present the reason and confidence
defaults apply. -/
theorem c5_parse_policy_witness :
    extract_yaml_part "pre ```yaml\ncategory: Tools\n``` post"
      = selectPayloadSpec "pre ```yaml\ncategory: Tools\n``` post"
    ∧ ((parse_ai_response (fun _ => .ok .other) (fun _ => none) "x").category
        = "Uncategorized"
      ∧ (parse_ai_response (fun _ => .ok .other) (fun _ => none) "x").confidence
        = 0.1)
    ∧ ((parse_ai_response (fun _ => .ok (.mapping [("reason", .str "r")]))
          (fun _ => none) "x").category = "Uncategorized"
      ∧ (parse_ai_response (fun _ => .ok (.mapping [("reason", .str "r")]))
          (fun _ => none) "x").confidence = 0.1)
    ∧ (parse_ai_response (fun _ => .ok (.mapping [("category", .str "Tools")]))
        (fun _ => none) "x").reason = "No reason provided"
    ∧ (parse_ai_response (fun _ => .ok (.mapping [("category", .str "Tools")]))
        (fun _ => none) "x").confidence = 0.5 := by
  refine ⟨c5_parse_policy.1 _,
    c5_parse_policy.2.1 _ _ _ rfl,
    c5_parse_policy.2.2.1 _ _ _ [("reason", .str "r")] rfl (by decide),
    c5_parse_policy.2.2.2.1 _ _ _ [("category", .str "Tools")] (.str "Tools")
      0.5 rfl (by decide) (by decide) rfl,
    c5_parse_policy.2.2.2.2 _ _ _ [("category", .str "Tools")] (.str "Tools")
      rfl (by decide) (by decide)⟩

/-- Counterexample for C9 as stated: on the well-formed response whose
confidence field is `2.0` (parsed by the YAML oracle exactly as
`yaml.safe_load` would), the Classifier returns a result with confidence
`2.0`, which lies outside the closed interval `[0.0, 1.0]`. -/
theorem c9_confidence_counterexample :
    (analyze_repository
        (fun _ => .ok "```yaml\ncategory: Tools\nconfidence: 2.0\n```")
        (fun _ => .ok (.mapping [("category", .str "Tools"), ("confidence", .num 2)]))
        (fun _ => none) [] "auto" { id := 1, full_name := "a/x" }).confidence = 2
    ∧ ¬ ((2 : Rat) ≤ 1) := by
  constructor
  · rfl
  · norm_num

/-- C9 amended: every result returned by the Classifier has confidence 0.1
on the sentinel paths and otherwise the response's coerced confidence value
(0.5 when absent); hence the confidence lies in the interval [0.0, 1.0]
whenever every confidence value the YAML oracle can deliver coerces into
that interval — the source applies no clamping of its own. -/
theorem c9_confidence_range
    (llm : String → Except String String)
    (safeLoad : String → Except String YamlValue)
    (strFloat : String → Option Rat)
    (cats : List String) (mode : String) (repo : Repo)
    (hbound : ∀ (s : String) (m : List (String × YamlScalar)) (q : Rat),
      safeLoad s = .ok (.mapping m) →
      floatOf strFloat ((dictGet? m "confidence").getD (.num 0.5)) = some q →
      0 ≤ q ∧ q ≤ 1) :
    0 ≤ (analyze_repository llm safeLoad strFloat cats mode repo).confidence
    ∧ (analyze_repository llm safeLoad strFloat cats mode repo).confidence ≤ 1 := by
  unfold analyze_repository
  cases hl : llm (classifier_prompt cats mode repo) with
  | error e => norm_num
  | ok resp =>
    unfold parse_ai_response
    cases hs : safeLoad (extract_yaml_part resp) with
    | error e => simp only [hs]; norm_num [parseFailure]
    | ok v =>
      cases v with
      | other => simp only [hs]; norm_num [parseFailure]
      | mapping m =>
        cases hc : dictGet? m "category" with
        | none => simp only [hs, hc]; norm_num [parseFailure]
        | some cat =>
          cases hf : floatOf strFloat ((dictGet? m "confidence").getD (.num 0.5)) with
          | none => simp only [hs, hc, hf]; norm_num [parseFailure]
          | some q =>
            simp only [hs, hc, hf]
            simpa using hbound _ _ _ hs hf

/-- Witness for C9's amended theorem at a concrete input: a failing gateway
yields the sentinel confidence 0.1, inside [0, 1]. -/
theorem c9_confidence_range_witness :
    0 ≤ (analyze_repository (fun _ => .error "down") (fun _ => .ok .other)
          (fun _ => none) [] "auto" { id := 1, full_name := "a/x" }).confidence
    ∧ (analyze_repository (fun _ => .error "down") (fun _ => .ok .other)
        (fun _ => none) [] "auto" { id := 1, full_name := "a/x" }).confidence ≤ 1 := by
  refine c9_confidence_range _ _ _ _ _ _ ?_
  intro s m q hs hq
  simp at hs

/-- C1: when the inference call for repository `r` raises (clause 1), or
the call succeeds and response parsing raises — the YAML load fails
(clause 2), the payload is not a mapping (clause 3), the key `category` is
missing (clause 4), or the confidence does not coerce to float (clause 5) —
the Classifier returns the sentinel `Uncategorized` result with confidence
0.1 and a reason carrying the failure detail, and the batch mapping
contains that entry for `r`; moreover every non-excluded repository's entry
equals its own independent analysis (clause 6) — the pipeline never drops a
repository. -/
theorem c1_failure_isolation
    (llm : String → Except String String)
    (safeLoad : String → Except String YamlValue)
    (strFloat : String → Option Rat)
    (cats : List String) (mode : String)
    (starred : List Repo) (excl : List String) (r : Repo)
    (hnd : ((analyze_prep starred excl).map Repo.full_name).Nodup)
    (hr : r ∈ starred) (hexcl : ¬ excl.contains r.full_name) :
    (∀ msg, llm (classifier_prompt cats mode r) = .error msg →
      dictGet? (classification_results_of llm safeLoad strFloat cats mode starred excl)
          r.full_name
        = some { category := "Uncategorized",
                 reason := "Analysis failed: " ++ msg,
                 confidence := 0.1 })
    ∧ (∀ resp e, llm (classifier_prompt cats mode r) = .ok resp →
        safeLoad (extract_yaml_part resp) = .error e →
        dictGet? (classification_results_of llm safeLoad strFloat cats mode starred excl)
            r.full_name
          = some { category := "Uncategorized",
                   reason := "Failed to parse AI response: " ++ e,
                   confidence := 0.1 })
    ∧ (∀ resp, llm (classifier_prompt cats mode r) = .ok resp →
        safeLoad (extract_yaml_part resp) = .ok .other →
        dictGet? (classification_results_of llm safeLoad strFloat cats mode starred excl)
            r.full_name
          = some { category := "Uncategorized",
                   reason := "Failed to parse AI response: "
                     ++ "Response is not a valid dictionary",
                   confidence := 0.1 })
    ∧ (∀ resp (m : List (String × YamlScalar)),
        llm (classifier_prompt cats mode r) = .ok resp →
        safeLoad (extract_yaml_part resp) = .ok (.mapping m) →
        dictGet? m "category" = none →
        dictGet? (classification_results_of llm safeLoad strFloat cats mode starred excl)
            r.full_name
          = some { category := "Uncategorized",
                   reason := "Failed to parse AI response: "
                     ++ "Missing \x27category\x27 field",
                   confidence := 0.1 })
    ∧ (∀ resp (m : List (String × YamlScalar)) (cat : YamlScalar),
        llm (classifier_prompt cats mode r) = .ok resp →
        safeLoad (extract_yaml_part resp) = .ok (.mapping m) →
        dictGet? m "category" = some cat →
        floatOf strFloat ((dictGet? m "confidence").getD (.num 0.5)) = none →
        dictGet? (classification_results_of llm safeLoad strFloat cats mode starred excl)
            r.full_name
          = some { category := "Uncategorized",
                   reason := "Failed to parse AI response: " ++ floatErrorText,
                   confidence := 0.1 })
    ∧ ∀ q ∈ starred, ¬ excl.contains q.full_name →
        dictGet? (classification_results_of llm safeLoad strFloat cats mode starred excl)
            q.full_name
          = some (analyze_repository llm safeLoad strFloat cats mode q) := by
  have hmem : ∀ q ∈ starred, ¬ excl.contains q.full_name →
      dictGet? (classification_results_of llm safeLoad strFloat cats mode starred excl)
          q.full_name
        = some (analyze_repository llm safeLoad strFloat cats mode q) := by
    intro q hq hqe
    unfold classification_results_of
    refine foldl_dictSet_get_mem Repo.full_name _ _ _ q hnd ?_
    refine List.mem_filter.mpr ⟨hq, ?_⟩
    simpa using hqe
  refine ⟨?_, ?_, ?_, ?_, ?_, hmem⟩
  · intro msg hfail
    rw [hmem r hr hexcl]
    unfold analyze_repository
    rw [hfail]
  · intro resp e hok hs
    rw [hmem r hr hexcl]
    simp [analyze_repository, hok, parse_ai_response, hs, parseFailure]
  · intro resp hok hs
    rw [hmem r hr hexcl]
    simp [analyze_repository, hok, parse_ai_response, hs, parseFailure]
  · intro resp m hok hs hc
    rw [hmem r hr hexcl]
    simp [analyze_repository, hok, parse_ai_response, hs, hc, parseFailure]
  · intro resp m cat hok hs hc hf
    rw [hmem r hr hexcl]
    simp [analyze_repository, hok, parse_ai_response, hs, hc, hf, parseFailure]

/-- Witness for C1 at concrete inputs: two starred repositories; a failing
gateway yields the `Analysis failed` sentinel, a succeeding gateway whose
response the YAML loader rejects yields the `Failed to parse AI response`
sentinel, a category-less mapping yields the missing-field sentinel, and
every repository's entry is its own analysis. -/
theorem c1_failure_isolation_witness :
    dictGet? (classification_results_of (fun _ => .error "boom")
        (fun _ => .ok .other) (fun _ => none) [] "auto"
        [{ id := 1, full_name := "a/x", name := "x" },
         { id := 2, full_name := "a/y", name := "y" }] []) "a/x"
      = some { category := "Uncategorized",
               reason := "Analysis failed: " ++ "boom",
               confidence := 0.1 }
    ∧ dictGet? (classification_results_of (fun _ => .ok "resp")
        (fun _ => .error "bad yaml") (fun _ => none) [] "auto"
        [{ id := 1, full_name := "a/x", name := "x" },
         { id := 2, full_name := "a/y", name := "y" }] []) "a/x"
      = some { category := "Uncategorized",
               reason := "Failed to parse AI response: " ++ "bad yaml",
               confidence := 0.1 }
    ∧ dictGet? (classification_results_of (fun _ => .ok "resp")
        (fun _ => .ok (.mapping [("reason", .str "r")])) (fun _ => none) [] "auto"
        [{ id := 1, full_name := "a/x", name := "x" },
         { id := 2, full_name := "a/y", name := "y" }] []) "a/x"
      = some { category := "Uncategorized",
               reason := "Failed to parse AI response: "
                 ++ "Missing \x27category\x27 field",
               confidence := 0.1 }
    ∧ ∀ q ∈ [({ id := 1, full_name := "a/x", name := "x" } : Repo),
             { id := 2, full_name := "a/y", name := "y" }],
        ¬ ([] : List String).contains q.full_name →
        dictGet? (classification_results_of (fun _ => .ok "resp")
            (fun _ => .error "bad yaml") (fun _ => none) [] "auto"
            [{ id := 1, full_name := "a/x", name := "x" },
             { id := 2, full_name := "a/y", name := "y" }] []) q.full_name
          = some (analyze_repository (fun _ => .ok "resp")
              (fun _ => .error "bad yaml") (fun _ => none) [] "auto" q) := by
  refine ⟨?_, ?_, ?_, ?_⟩
  · exact (c1_failure_isolation (fun _ => .error "boom")
      (fun _ => .ok .other) (fun _ => none) [] "auto"
      [{ id := 1, full_name := "a/x", name := "x" },
       { id := 2, full_name := "a/y", name := "y" }] []
      { id := 1, full_name := "a/x", name := "x" }
      (by decide) (by decide) (by decide)).1 "boom" rfl
  · exact (c1_failure_isolation (fun _ => .ok "resp")
      (fun _ => .error "bad yaml") (fun _ => none) [] "auto"
      [{ id := 1, full_name := "a/x", name := "x" },
       { id := 2, full_name := "a/y", name := "y" }] []
      { id := 1, full_name := "a/x", name := "x" }
      (by decide) (by decide) (by decide)).2.1 "resp" "bad yaml" rfl rfl
  · exact (c1_failure_isolation (fun _ => .ok "resp")
      (fun _ => .ok (.mapping [("reason", .str "r")])) (fun _ => none) [] "auto"
      [{ id := 1, full_name := "a/x", name := "x" },
       { id := 2, full_name := "a/y", name := "y" }] []
      { id := 1, full_name := "a/x", name := "x" }
      (by decide) (by decide) (by decide)).2.2.2.1 "resp"
      [("reason", .str "r")] rfl rfl (by decide)
  · exact (c1_failure_isolation (fun _ => .ok "resp")
      (fun _ => .error "bad yaml") (fun _ => none) [] "auto"
      [{ id := 1, full_name := "a/x", name := "x" },
       { id := 2, full_name := "a/y", name := "y" }] []
      { id := 1, full_name := "a/x", name := "x" }
      (by decide) (by decide) (by decide)).2.2.2.2.2

theorem mem_foldl_dictSet_eq {α β : Type} (κ : α → String) (w : α → β)
    (L : List α) (acc : List (String × β)) (p : String × β)
    (hp : p ∈ L.foldl (fun m a => dictSet m (κ a) (w a)) acc) :
    p ∈ acc ∨ ∃ a ∈ L, p = (κ a, w a) := by
  induction L generalizing acc with
  | nil => exact Or.inl hp
  | cons hd tl ih =>
    rw [List.foldl_cons] at hp
    rcases ih _ hp with h | ⟨a, ha, hae⟩
    · rcases mem_dictSet h with h1 | h1
      · exact Or.inl h1
      · exact Or.inr ⟨hd, List.mem_cons_self _ _, h1⟩
    · exact Or.inr ⟨a, List.mem_cons_of_mem _ ha, hae⟩

theorem organize_fold_inv (repo_map : List (String × Repo))
    (hmap : ∀ k v, dictGet? repo_map k = some v → v.full_name = k)
    (C : String → Prop)
    (L : List (String × ClassificationResult))
    (hL : ∀ q ∈ L, C q.1)
    (acc : List (String × List Repo))
    (hacc : ∀ p ∈ acc, ∀ r ∈ p.2, C r.full_name) :
    ∀ p ∈ L.foldl
        (fun organized q =>
          match dictGet? repo_map q.1 with
          | some repo =>
            dictSet organized q.2.category
              ((dictGet? organized q.2.category).getD [] ++ [repo])
          | none => organized) acc,
      ∀ r ∈ p.2, C r.full_name := by
  induction L generalizing acc with
  | nil => exact hacc
  | cons hd tl ih =>
    rw [List.foldl_cons]
    cases hm : dictGet? repo_map hd.1 with
    | none =>
      simp only [hm]
      exact ih (fun q hq => hL q (List.mem_cons_of_mem _ hq)) _ hacc
    | some repo =>
      simp only [hm]
      refine ih (fun q hq => hL q (List.mem_cons_of_mem _ hq)) _ ?_
      intro p' hp' r' hr'
      rcases mem_dictSet hp' with h | h
      · exact hacc _ h _ hr'
      · rw [h] at hr'
        rcases List.mem_append.mp hr' with h2 | h2
        · cases hg : dictGet? acc hd.2.category with
          | none => rw [hg] at h2; simp at h2
          | some g =>
            rw [hg] at h2
            simp only [Option.getD_some] at h2
            exact hacc _ (dictGet_mem hg) _ h2
        · have hre : r' = repo := by simpa using h2
          rw [hre, hmap _ _ hm]
          exact hL hd (List.mem_cons_self _ _)

/-- C7: a repository whose `full_name` is in `config.exclude_repos` is
absent from the batch `prep` hands to the Classifier (so no Classifier
invocation occurs for it), has no entry in the classification mapping, and
appears in no category group produced by grouping. -/
theorem c7_exclusion
    (llm : String → Except String String)
    (safeLoad : String → Except String YamlValue)
    (strFloat : String → Option Rat)
    (cats : List String) (mode : String)
    (starred : List Repo) (excl : List String) (e : String)
    (he : e ∈ excl) :
    (∀ r ∈ analyze_prep starred excl, r.full_name ≠ e)
    ∧ dictGet? (classification_results_of llm safeLoad strFloat cats mode starred excl) e
        = none
    ∧ ∀ p ∈ organize_repos_by_category
          (classification_results_of llm safeLoad strFloat cats mode starred excl)
          starred,
        ∀ r ∈ p.2, r.full_name ≠ e := by
  have hprep : ∀ r ∈ analyze_prep starred excl, r.full_name ≠ e := by
    intro r hr hre
    have hmem := (List.mem_filter.mp hr).2
    simp at hmem
    exact hmem (hre.symm ▸ he)
  have hkeys : ∀ q ∈ classification_results_of llm safeLoad strFloat cats mode starred excl,
      q.1 ≠ e := by
    intro q hq
    unfold classification_results_of at hq
    rcases mem_foldl_dictSet_eq _ _ _ _ _ hq with h | ⟨a, ha, hae⟩
    · cases h
    · rw [hae]
      exact hprep a ha
  have hmap : ∀ k v,
      dictGet? (starred.foldl (fun m repo => dictSet m repo.full_name repo) []) k = some v →
      v.full_name = k := by
    intro k v hkv
    rcases mem_foldl_dictSet_eq Repo.full_name (fun r => r) starred [] _ (dictGet_mem hkv)
      with h | ⟨a, ha, hae⟩
    · cases h
    · have h1 : k = a.full_name := congrArg Prod.fst hae
      have h2 : v = a := congrArg Prod.snd hae
      rw [h1, h2]
  refine ⟨hprep, ?_, ?_⟩
  · unfold classification_results_of
    rw [foldl_dictSet_get_ne Repo.full_name _ _ _ e hprep]
    rfl
  · exact organize_fold_inv
      (starred.foldl (fun m repo => dictSet m repo.full_name repo) []) hmap
      (fun n => n ≠ e) _ hkeys [] (by intro p hp; cases hp)

/-- Witness for C7 at a concrete input: with `a/y` excluded, the batch, the
mapping and the groups all avoid it. -/
theorem c7_exclusion_witness :
    (∀ r ∈ analyze_prep
        [{ id := 1, full_name := "a/x" }, { id := 2, full_name := "a/y" }] ["a/y"],
      r.full_name ≠ "a/y")
    ∧ dictGet? (classification_results_of (fun _ => .error "down")
        (fun _ => .ok .other) (fun _ => none) [] "auto"
        [{ id := 1, full_name := "a/x" }, { id := 2, full_name := "a/y" }] ["a/y"]) "a/y"
        = none
    ∧ ∀ p ∈ organize_repos_by_category
          (classification_results_of (fun _ => .error "down")
            (fun _ => .ok .other) (fun _ => none) [] "auto"
            [{ id := 1, full_name := "a/x" }, { id := 2, full_name := "a/y" }] ["a/y"])
          [{ id := 1, full_name := "a/x" }, { id := 2, full_name := "a/y" }],
        ∀ r ∈ p.2, r.full_name ≠ "a/y" :=
  c7_exclusion _ _ _ [] "auto"
    [{ id := 1, full_name := "a/x" }, { id := 2, full_name := "a/y" }] ["a/y"] "a/y"
    (by decide)

/-- C4: with `use_ai_summary` disabled (clause 1) or a failing inference
gateway (clause 2) the generated summary is the deterministic basic
description; on the spec's three-repository scenario it equals exactly
`"Auto-categorized Tools repositories (3 repos) - Main languages: Python, Go - Total stars: 16"`
(clause 3); a language-count tie keeps first-encountered order and a zero
star sum suppresses the stars suffix (clause 4); repositories with no known
language produce no languages suffix (clause 5). -/
theorem c4_fallback_description :
    (∀ (llm : String → Except String String) (opts : SummaryOptions)
        (category : String) (repos : List Repo),
      opts.use_ai_summary = false →
      generate_ai_summary llm opts category repos
        = generate_basic_description opts category repos)
    ∧ (∀ (llm : String → Except String String) (opts : SummaryOptions)
        (category : String) (repos : List Repo) (err : String → String),
      (∀ p, llm p = .error (err p)) →
      generate_ai_summary llm opts category repos
        = generate_basic_description opts category repos)
    ∧ generate_basic_description
        { auto_complete := true, enhance_existing := true,
          use_ai_summary := false, include_stats := true } "Tools"
        [{ id := 1, full_name := "a/x", language := "Python", stargazers_count := 10 },
         { id := 2, full_name := "a/y", language := "Python", stargazers_count := 5 },
         { id := 3, full_name := "a/z", language := "Go", stargazers_count := 1 }]
        = "Auto-categorized Tools repositories (3 repos) - Main languages: Python, Go - Total stars: 16"
    ∧ generate_basic_description
        { auto_complete := true, enhance_existing := true,
          use_ai_summary := false, include_stats := true } "Mixed"
        [{ id := 1, full_name := "a/g", language := "Go" },
         { id := 2, full_name := "a/p", language := "Python" }]
        = "Auto-categorized Mixed repositories (2 repos) - Main languages: Go, Python"
    ∧ generate_basic_description
        { auto_complete := true, enhance_existing := true,
          use_ai_summary := false, include_stats := true } "Misc"
        [{ id := 1, full_name := "a/m" }]
        = "Auto-categorized Misc repositories (1 repos)" := by
  refine ⟨?_, ?_, by decide, by decide, by decide⟩
  · intro llm opts category repos h
    simp [generate_ai_summary, h]
  · intro llm opts category repos err hfail
    by_cases hu : opts.use_ai_summary
    · simp only [generate_ai_summary, hu]
      rw [hfail]
      simp
    · simp [generate_ai_summary, hu]

/-- Witness for C4's conditional clauses at concrete inputs: a disabled
AI-summary flag and a failing gateway both fall back to the deterministic
description. -/
theorem c4_fallback_description_witness :
    generate_ai_summary (fun _ => .error "down")
      { auto_complete := true, enhance_existing := true,
        use_ai_summary := false, include_stats := true } "Tools"
      [{ id := 1, full_name := "a/x", language := "Python", stargazers_count := 10 }]
      = generate_basic_description
        { auto_complete := true, enhance_existing := true,
          use_ai_summary := false, include_stats := true } "Tools"
        [{ id := 1, full_name := "a/x", language := "Python", stargazers_count := 10 }]
    ∧ generate_ai_summary (fun _ => .error "down")
      { auto_complete := true, enhance_existing := true,
        use_ai_summary := true, include_stats := true } "Tools"
      [{ id := 1, full_name := "a/x", language := "Python", stargazers_count := 10 }]
      = generate_basic_description
        { auto_complete := true, enhance_existing := true,
          use_ai_summary := true, include_stats := true } "Tools"
        [{ id := 1, full_name := "a/x", language := "Python", stargazers_count := 10 }] :=
  ⟨c4_fallback_description.1 _ _ _ _ rfl,
   c4_fallback_description.2.1 _ _ _ _ (fun _ => "down") (fun _ => rfl)⟩

/-- C10: updating an existing list with an empty decided description never
issues the description-update host call, even when the cached description is
non-empty (and hence differs); the trace gains only the membership
attachment. -/
theorem c10_empty_description_no_update (gh : GitHubOracle) (st : MgrState)
    (existing_list : RemoteList) (repos_to_add : List Repo) :
    (update_existing_list gh st existing_list "" repos_to_add).2.trace
      = st.trace
        ++ (if repos_to_add ≠ [] then
              [GHCall.addCall existing_list.id (repos_to_add.map (·.id))]
            else []) := by
  unfold update_existing_list
  cases hga : gh.add_repos_to_list existing_list.id (repos_to_add.map (·.id)) with
  | error e => by_cases h2 : repos_to_add = [] <;> simp [h2, hga]
  | ok u => by_cases h2 : repos_to_add = [] <;> simp [h2, hga]

/-- C8: for a category whose existing list has a non-empty description and
with `enhance_existing` enabled, a failing inference gateway leaves the
decided description equal to the original existing description. -/
theorem c8_enhance_failure_keeps_original
    (llm : String → Except String String) (opts : SummaryOptions)
    (lists : List RemoteList) (rbc : List (String × List Repo))
    (cat : String) (repos : List Repo) (ex : RemoteList) (err : String → String)
    (hfail : ∀ p, llm p = .error (err p))
    (hfind : lists.find? (fun lst => lst.name = cat) = some ex)
    (hdesc : ex.description ≠ "")
    (henh : opts.enhance_existing = true)
    (hmem : (cat, repos) ∈ rbc)
    (hnd : (rbc.map Prod.fst).Nodup) :
    dictGet? (complete_list_summaries llm opts lists rbc) cat
      = some ex.description := by
  have hget := foldl_dictSet_get_mem Prod.fst
    (fun p => decide_summary llm opts lists p.1 p.2) rbc [] (cat, repos) hnd hmem
  have henhanced : enhance_existing_description llm opts ex.description cat repos
      = ex.description := by
    unfold enhance_existing_description
    by_cases hu : opts.use_ai_summary
    · simp only [hu]
      rw [hfail]
      simp
    · simp [hu]
  have hdecide : decide_summary llm opts lists cat repos = ex.description := by
    unfold decide_summary
    rw [hfind]
    simp [hdesc, henh, henhanced]
  unfold complete_list_summaries
  rw [hget]
  exact congrArg some hdecide

/-- Witness for C8 at a concrete input: existing list `Web` with description
`old desc`, failing gateway — the decided summary is `old desc`. -/
theorem c8_enhance_failure_keeps_original_witness :
    dictGet? (complete_list_summaries (fun _ => .error "down")
        { auto_complete := true, enhance_existing := true,
          use_ai_summary := true, include_stats := true }
        [{ id := 7, name := "Web", description := "old desc" }]
        [("Web", [{ id := 21, full_name := "w/app" }])]) "Web"
      = some ({ id := 7, name := "Web", description := "old desc" } : RemoteList).description :=
  c8_enhance_failure_keeps_original _ _ _ _ "Web"
    [{ id := 21, full_name := "w/app" }]
    { id := 7, name := "Web", description := "old desc" }
    (fun _ => "down") (fun _ => rfl) (by decide) (by decide) rfl
    (by decide) (by decide)

/-- C3: with the category initially absent from the list cache and a
healthy host, calling `create_or_update_list` twice with the same arguments
yields action `created` then action `updated`, and `create_star_list` is
issued exactly once across both calls — the first create inserts the new
list into the cache, so the second call collapses to an update. -/
theorem c3_idempotent_create_update
    (gh : GitHubOracle) (cache : List (String × RemoteList))
    (name desc : String) (repos : List Repo) (lst : RemoteList)
    (hmiss : dictGet? cache name = none)
    (hcreate : gh.create_star_list name desc = .ok lst)
    (hupd : ∀ i d, gh.update_star_list i d = .ok ())
    (hadd : ∀ i ids, gh.add_repos_to_list i ids = .ok ()) :
    (create_or_update_list gh { cache := cache, trace := [] } name desc repos).1.action
        = some "created"
    ∧ (create_or_update_list gh
        (create_or_update_list gh { cache := cache, trace := [] } name desc repos).2
        name desc repos).1.action = some "updated"
    ∧ ((create_or_update_list gh
        (create_or_update_list gh { cache := cache, trace := [] } name desc repos).2
        name desc repos).2.trace.filter isCreateCall)
        = [.createCall name desc] := by
  have h1 : create_or_update_list gh { cache := cache, trace := [] } name desc repos
      = ({ success := true, action := some "created", list_id := some lst.id,
           repos_added := some repos.length },
         { cache := dictSet cache name lst,
           trace := GHCall.createCall name desc ::
             (if repos ≠ [] then [GHCall.addCall lst.id (repos.map (·.id))] else []) }) := by
    unfold create_or_update_list create_new_list
    by_cases hr : repos = []
    · simp [hmiss, hcreate, hr]
    · simp [hmiss, hcreate, hr, hadd]
  have h2 : ∀ st : MgrState, dictGet? st.cache name = some lst →
      (create_or_update_list gh st name desc repos).1.action = some "updated"
      ∧ (create_or_update_list gh st name desc repos).2.trace
          = st.trace
            ++ (if desc ≠ "" ∧ desc ≠ lst.description then
                  [GHCall.updateCall lst.id desc] else [])
            ++ (if repos ≠ [] then [GHCall.addCall lst.id (repos.map (·.id))] else []) := by
    intro st hst
    unfold create_or_update_list update_existing_list
    by_cases hd : desc ≠ "" ∧ desc ≠ lst.description
    · by_cases hr : repos = [] <;> simp [hst, hd, hupd, hadd, hr]
    · by_cases hr : repos = [] <;> simp [hst, hd, hupd, hadd, hr]
  have hcache2 : dictGet?
      (create_or_update_list gh { cache := cache, trace := [] } name desc repos).2.cache
      name = some lst := by
    rw [h1]
    exact dictGet_dictSet_self cache name lst
  refine ⟨by rw [h1], (h2 _ hcache2).1, ?_⟩
  rw [(h2 _ hcache2).2, h1]
  by_cases hd : desc ≠ "" ∧ desc ≠ lst.description <;>
    by_cases hr : repos = [] <;>
      simp [hd, hr, List.filter_append, isCreateCall]

/-- Witness for C3 at concrete inputs: category `Tools`, empty initial
cache, one repository, an always-succeeding host oracle. -/
theorem c3_idempotent_create_update_witness :
    (create_or_update_list
        { user_lists := .ok [],
          create_star_list := fun n d => .ok { id := 5, name := n, description := d },
          update_star_list := fun _ _ => .ok (),
          add_repos_to_list := fun _ _ => .ok () }
        { cache := [], trace := [] } "Tools" "d"
        [{ id := 1, full_name := "a/x" }]).1.action = some "created"
    ∧ (create_or_update_list
        { user_lists := .ok [],
          create_star_list := fun n d => .ok { id := 5, name := n, description := d },
          update_star_list := fun _ _ => .ok (),
          add_repos_to_list := fun _ _ => .ok () }
        (create_or_update_list
          { user_lists := .ok [],
            create_star_list := fun n d => .ok { id := 5, name := n, description := d },
            update_star_list := fun _ _ => .ok (),
            add_repos_to_list := fun _ _ => .ok () }
          { cache := [], trace := [] } "Tools" "d"
          [{ id := 1, full_name := "a/x" }]).2 "Tools" "d"
        [{ id := 1, full_name := "a/x" }]).1.action = some "updated"
    ∧ ((create_or_update_list
        { user_lists := .ok [],
          create_star_list := fun n d => .ok { id := 5, name := n, description := d },
          update_star_list := fun _ _ => .ok (),
          add_repos_to_list := fun _ _ => .ok () }
        (create_or_update_list
          { user_lists := .ok [],
            create_star_list := fun n d => .ok { id := 5, name := n, description := d },
            update_star_list := fun _ _ => .ok (),
            add_repos_to_list := fun _ _ => .ok () }
          { cache := [], trace := [] } "Tools" "d"
          [{ id := 1, full_name := "a/x" }]).2 "Tools" "d"
        [{ id := 1, full_name := "a/x" }]).2.trace.filter isCreateCall)
        = [.createCall "Tools" "d"] :=
  c3_idempotent_create_update _ [] "Tools" "d" [{ id := 1, full_name := "a/x" }]
    { id := 5, name := "Tools", description := "d" }
    rfl rfl (fun _ _ => rfl) (fun _ _ => rfl)

theorem update_existing_trace (gh : GitHubOracle) (st : MgrState)
    (ex : RemoteList) (desc : String) (repos : List Repo) :
    (update_existing_list gh st ex desc repos).2.trace.filter isUpdateCall
      = st.trace.filter isUpdateCall
        ++ (if desc ≠ "" ∧ desc ≠ ex.description then
              [GHCall.updateCall ex.id desc] else []) := by
  unfold update_existing_list
  by_cases hd : desc ≠ "" ∧ desc ≠ ex.description
  · cases hgu : gh.update_star_list ex.id desc with
    | error e => simp [hd, hgu, List.filter_append, isUpdateCall]
    | ok u =>
      by_cases hr : repos = []
      · simp [hd, hgu, hr, List.filter_append, isUpdateCall]
      · cases hga : gh.add_repos_to_list ex.id (repos.map (·.id)) <;>
          simp [hd, hgu, hr, hga, List.filter_append, isUpdateCall]
  · by_cases hr : repos = []
    · simp [hd, hr]
    · cases hga : gh.add_repos_to_list ex.id (repos.map (·.id)) <;>
        simp [hd, hr, hga, List.filter_append, isUpdateCall]

theorem create_or_update_cached_state (gh : GitHubOracle) (st : MgrState)
    (list_name desc : String) (repos : List Repo) (ex : RemoteList)
    (hcache : dictGet? st.cache list_name = some ex) :
    (create_or_update_list gh st list_name desc repos).2
      = (update_existing_list gh st ex desc repos).2 := by
  unfold create_or_update_list
  rcases h : update_existing_list gh st ex desc repos with ⟨res, st1⟩
  cases res <;> simp [hcache, h]

/-- C6 amended: for a live reconciliation of a category present in the list
cache, the description-update host call is issued exactly when the decided
description is non-empty and differs from the cached one (clause 1; the
claim's plain `differs` fails for an empty decided description); with
`enhance_existing` disabled an existing non-empty description is decided
verbatim (clause 2); and pushing a decided description equal to the cached
one issues no update while still attaching the grouped repository ids
additively, with action `updated` (clause 3). -/
theorem c6_update_on_nonempty_delta
    (gh : GitHubOracle) (st : MgrState) (list_name desc : String)
    (repos : List Repo) (ex : RemoteList)
    (hcache : dictGet? st.cache list_name = some ex) :
    ((create_or_update_list gh st list_name desc repos).2.trace.filter isUpdateCall
      = st.trace.filter isUpdateCall
        ++ (if desc ≠ "" ∧ desc ≠ ex.description then
              [GHCall.updateCall ex.id desc] else []))
    ∧ (∀ (llm : String → Except String String) (opts : SummaryOptions)
          (lists : List RemoteList) (repos2 : List Repo),
        opts.enhance_existing = false →
        lists.find? (fun lst => lst.name = list_name) = some ex →
        ex.description ≠ "" →
        decide_summary llm opts lists list_name repos2 = ex.description)
    ∧ (desc = ex.description → repos ≠ [] →
        gh.add_repos_to_list ex.id (repos.map (·.id)) = .ok () →
        (create_or_update_list gh st list_name desc repos).1.action = some "updated"
        ∧ (create_or_update_list gh st list_name desc repos).2.trace
            = st.trace ++ [GHCall.addCall ex.id (repos.map (·.id))]) := by
  refine ⟨?_, ?_, ?_⟩
  · rw [create_or_update_cached_state gh st list_name desc repos ex hcache,
      update_existing_trace]
  · intro llm opts lists repos2 henh hfind hdesc
    unfold decide_summary
    rw [hfind]
    simp [hdesc, henh]
  · intro hdq hr hga
    have hd : ¬(desc ≠ "" ∧ desc ≠ ex.description) := by simp [hdq]
    unfold create_or_update_list update_existing_list
    simp [hcache, hd, hr, hga]

/-- Counterexample for C6 as stated: a whitespace-only (yet non-empty, so
not a raised failure) enhancement completion is stripped to the empty
string, so the decided description `""` differs from the cached
`"old desc"`, and still no `update_list` call is issued. -/
theorem c6_update_delta_counterexample :
    (dictGet? (complete_list_summaries (fun _ => .ok " ")
        { auto_complete := true, enhance_existing := true,
          use_ai_summary := true, include_stats := true }
        [{ id := 7, name := "Web", description := "old desc" }]
        [("Web", [{ id := 21, full_name := "w/app" }])]) "Web").getD ""
      = ""
    ∧ dictGet? (list_cache_of [{ id := 7, name := "Web", description := "old desc" }])
        "Web" = some { id := 7, name := "Web", description := "old desc" }
    ∧ ("" : String) ≠ "old desc"
    ∧ (create_or_update_list
        { user_lists := .ok [{ id := 7, name := "Web", description := "old desc" }],
          create_star_list := fun n d => .ok { id := 99, name := n, description := d },
          update_star_list := fun _ _ => .ok (),
          add_repos_to_list := fun _ _ => .ok () }
        { cache := list_cache_of [{ id := 7, name := "Web", description := "old desc" }],
          trace := [] }
        "Web"
        ((dictGet? (complete_list_summaries (fun _ => .ok " ")
            { auto_complete := true, enhance_existing := true,
              use_ai_summary := true, include_stats := true }
            [{ id := 7, name := "Web", description := "old desc" }]
            [("Web", [{ id := 21, full_name := "w/app" }])]) "Web").getD "")
        [{ id := 21, full_name := "w/app" }]).2.trace.filter isUpdateCall = [] :=
  ⟨by decide, by decide, by decide, by decide⟩

/-- Witness for C6's amended theorem at concrete inputs: cached list `Web`
with description `old desc`; the no-delta push issues no update and attaches
the repository, and disabled enhancement decides `old desc` verbatim. -/
theorem c6_update_on_nonempty_delta_witness :
    ((create_or_update_list
        { user_lists := .ok [{ id := 7, name := "Web", description := "old desc" }],
          create_star_list := fun n d => .ok { id := 99, name := n, description := d },
          update_star_list := fun _ _ => .ok (),
          add_repos_to_list := fun _ _ => .ok () }
        { cache := [("Web", { id := 7, name := "Web", description := "old desc" })],
          trace := [] }
        "Web" "old desc"
        [{ id := 21, full_name := "w/app" }]).2.trace.filter isUpdateCall
      = ([] : List GHCall).filter isUpdateCall
        ++ (if ("old desc" : String) ≠ ""
              ∧ ("old desc" : String)
                  ≠ ({ id := 7, name := "Web", description := "old desc" } : RemoteList).description
            then [GHCall.updateCall 7 "old desc"] else []))
    ∧ decide_summary (fun _ => .ok "ignored")
        { auto_complete := true, enhance_existing := false,
          use_ai_summary := true, include_stats := true }
        [{ id := 7, name := "Web", description := "old desc" }] "Web" []
        = ({ id := 7, name := "Web", description := "old desc" } : RemoteList).description
    ∧ ((create_or_update_list
        { user_lists := .ok [{ id := 7, name := "Web", description := "old desc" }],
          create_star_list := fun n d => .ok { id := 99, name := n, description := d },
          update_star_list := fun _ _ => .ok (),
          add_repos_to_list := fun _ _ => .ok () }
        { cache := [("Web", { id := 7, name := "Web", description := "old desc" })],
          trace := [] }
        "Web" "old desc"
        [{ id := 21, full_name := "w/app" }]).1.action = some "updated"
      ∧ (create_or_update_list
          { user_lists := .ok [{ id := 7, name := "Web", description := "old desc" }],
            create_star_list := fun n d => .ok { id := 99, name := n, description := d },
            update_star_list := fun _ _ => .ok (),
            add_repos_to_list := fun _ _ => .ok () }
          { cache := [("Web", { id := 7, name := "Web", description := "old desc" })],
            trace := [] }
          "Web" "old desc"
          [{ id := 21, full_name := "w/app" }]).2.trace
          = ([] : List GHCall) ++ [GHCall.addCall 7 [21]]) := by
  have T := c6_update_on_nonempty_delta
    { user_lists := .ok [{ id := 7, name := "Web", description := "old desc" }],
      create_star_list := fun n d => .ok { id := 99, name := n, description := d },
      update_star_list := fun _ _ => .ok (),
      add_repos_to_list := fun _ _ => .ok () }
    { cache := [("Web", { id := 7, name := "Web", description := "old desc" })],
      trace := [] }
    "Web" "old desc" [{ id := 21, full_name := "w/app" }]
    { id := 7, name := "Web", description := "old desc" }
    (by decide)
  exact ⟨T.1,
    T.2.1 (fun _ => .ok "ignored")
      { auto_complete := true, enhance_existing := false,
        use_ai_summary := true, include_stats := true }
      [{ id := 7, name := "Web", description := "old desc" }] [] rfl
      (by decide) (by decide),
    T.2.2 rfl (by decide) rfl⟩

theorem manage_step_dry (gh : GitHubOracle) (s : List (String × String))
    (acc : List (String × OperationResult) × MgrState) (p : String × List Repo) :
    manage_step gh s true acc p
      = if p.2 = [] then acc
        else (dictSet acc.1 p.1
          { success := true, action := some "dry_run",
            repos_count := some p.2.length,
            repos := some (p.2.map (·.full_name)),
            enhanced_description := some ((dictGet? s p.1).getD "") }, acc.2) := by
  unfold manage_step
  by_cases h : p.2 = [] <;> simp [h]

theorem manage_dry_fold_state (gh : GitHubOracle) (s : List (String × String))
    (L : List (String × List Repo))
    (res0 : List (String × OperationResult)) (st : MgrState) :
    (L.foldl (manage_step gh s true) (res0, st)).2 = st := by
  induction L generalizing res0 with
  | nil => rfl
  | cons hd tl ih =>
    rw [List.foldl_cons, manage_step_dry]
    by_cases h : hd.2 = []
    · rw [if_pos h]
      exact ih res0
    · rw [if_neg h]
      exact ih _

theorem manage_dry_fold_get_ne (gh : GitHubOracle) (s : List (String × String))
    (L : List (String × List Repo))
    (acc : List (String × OperationResult) × MgrState) (k : String)
    (h : ∀ a ∈ L, a.1 ≠ k) :
    dictGet? (L.foldl (manage_step gh s true) acc).1 k = dictGet? acc.1 k := by
  induction L generalizing acc with
  | nil => rfl
  | cons hd tl ih =>
    rw [List.foldl_cons, manage_step_dry]
    by_cases hh : hd.2 = []
    · rw [if_pos hh]
      exact ih _ (fun a ha => h a (List.mem_cons_of_mem _ ha))
    · rw [if_neg hh]
      rw [ih _ (fun a ha => h a (List.mem_cons_of_mem _ ha))]
      exact dictGet_dictSet_ne _ _ _ _
        (fun hc => h hd (List.mem_cons_self _ _) hc.symm)

theorem manage_dry_fold_get (gh : GitHubOracle) (s : List (String × String))
    (L : List (String × List Repo))
    (res0 : List (String × OperationResult)) (st : MgrState)
    (p : String × List Repo)
    (hnd : (L.map Prod.fst).Nodup) (hp : p ∈ L) (hne : p.2 ≠ []) :
    dictGet? (L.foldl (manage_step gh s true) (res0, st)).1 p.1
      = some { success := true, action := some "dry_run",
               repos_count := some p.2.length,
               repos := some (p.2.map (·.full_name)),
               enhanced_description := some ((dictGet? s p.1).getD "") } := by
  revert hnd hp
  induction L generalizing res0 st with
  | nil =>
    intro _ hp
    cases hp
  | cons hd tl ih =>
    intro hnd hp
    rw [List.foldl_cons, manage_step_dry]
    simp only [List.map_cons, List.nodup_cons] at hnd
    rcases List.mem_cons.mp hp with rfl | hmem
    · rw [if_neg hne]
      rw [manage_dry_fold_get_ne gh s tl _ p.1
        (fun a ha hc => hnd.1 (hc ▸ List.mem_map_of_mem Prod.fst ha))]
      exact dictGet_dictSet_self _ _ _
    · by_cases hh : hd.2 = []
      · rw [if_pos hh]
        exact ih _ _ hnd.2 hmem
      · rw [if_neg hh]
        exact ih _ _ hnd.2 hmem

theorem organize_fold_keys_nodup (repo_map : List (String × Repo))
    (L : List (String × ClassificationResult)) :
    ∀ acc : List (String × List Repo), (acc.map Prod.fst).Nodup →
      ((L.foldl
          (fun organized q =>
            match dictGet? repo_map q.1 with
            | some repo =>
              dictSet organized q.2.category
                ((dictGet? organized q.2.category).getD [] ++ [repo])
            | none => organized) acc).map Prod.fst).Nodup := by
  induction L with
  | nil => exact fun acc h => h
  | cons hd tl ih =>
    intro acc h
    rw [List.foldl_cons]
    cases hm : dictGet? repo_map hd.1 with
    | none =>
      simp only [hm]
      exact ih _ h
    | some repo =>
      simp only [hm]
      exact ih _ (nodup_keys_dictSet h)

theorem organize_keys_nodup
    (cls : List (String × ClassificationResult)) (starred : List Repo) :
    ((organize_repos_by_category cls starred).map Prod.fst).Nodup := by
  unfold organize_repos_by_category
  exact organize_fold_keys_nodup _ cls [] (by simp)

/-- C2: with `dry_run = true` the reconciliation stage issues no
`create_list`, `update_list` or `add_repos_to_list` host call (the trace of
mutating calls stays empty), and every category with a non-empty group is
reported as `{success: true, action: "dry_run"}` with `repos_count` the
group's size, `repos` the grouped full names, and the decided description
attached. -/
theorem c2_dry_run_purity
    (gh : GitHubOracle) (llm : String → Except String String)
    (opts : SummaryOptions)
    (cls : List (String × ClassificationResult)) (starred : List Repo) :
    (manage_exec gh llm opts cls starred true).2.trace = []
    ∧ ∀ p ∈ organize_repos_by_category cls starred, p.2 ≠ [] →
        dictGet? (manage_exec gh llm opts cls starred true).1 p.1
          = some { success := true, action := some "dry_run",
                   repos_count := some p.2.length,
                   repos := some (p.2.map (·.full_name)),
                   enhanced_description := some ((dictGet?
                       (complete_list_summaries llm opts
                         (match gh.user_lists with | .ok l => l | .error _ => [])
                         (organize_repos_by_category cls starred)) p.1).getD "") } := by
  unfold manage_exec
  constructor
  · exact congrArg MgrState.trace (manage_dry_fold_state gh _ _ [] _)
  · intro p hp hne
    exact manage_dry_fold_get gh _ _ [] _ p (organize_keys_nodup cls starred) hp hne

/-- Witness for C2 at a concrete input: one starred repository classified as
`Tools`, no existing lists, AI summaries disabled; the dry run issues no
mutating call and records the deterministic description. -/
theorem c2_dry_run_purity_witness :
    (manage_exec
        { user_lists := .ok [],
          create_star_list := fun n d => .ok { id := 5, name := n, description := d },
          update_star_list := fun _ _ => .ok (),
          add_repos_to_list := fun _ _ => .ok () }
        (fun _ => .error "down")
        { auto_complete := true, enhance_existing := true,
          use_ai_summary := false, include_stats := true }
        [("a/x", { category := "Tools", reason := "r", confidence := 1 })]
        [{ id := 1, full_name := "a/x", language := "Python", stargazers_count := 10 }]
        true).2.trace = []
    ∧ dictGet? (manage_exec
        { user_lists := .ok [],
          create_star_list := fun n d => .ok { id := 5, name := n, description := d },
          update_star_list := fun _ _ => .ok (),
          add_repos_to_list := fun _ _ => .ok () }
        (fun _ => .error "down")
        { auto_complete := true, enhance_existing := true,
          use_ai_summary := false, include_stats := true }
        [("a/x", { category := "Tools", reason := "r", confidence := 1 })]
        [{ id := 1, full_name := "a/x", language := "Python", stargazers_count := 10 }]
        true).1 "Tools"
      = some { success := true, action := some "dry_run",
               repos_count := some 1,
               repos := some ["a/x"],
               enhanced_description := some
                 "Auto-categorized Tools repositories (1 repos) - Main languages: Python - Total stars: 10" } := by
  have T := c2_dry_run_purity
    { user_lists := .ok [],
      create_star_list := fun n d => .ok { id := 5, name := n, description := d },
      update_star_list := fun _ _ => .ok (),
      add_repos_to_list := fun _ _ => .ok () }
    (fun _ => .error "down")
    { auto_complete := true, enhance_existing := true,
      use_ai_summary := false, include_stats := true }
    [("a/x", { category := "Tools", reason := "r", confidence := 1 })]
    [{ id := 1, full_name := "a/x", language := "Python", stargazers_count := 10 }]
  refine ⟨T.1, ?_⟩
  have h2 := T.2
    ("Tools", [{ id := 1, full_name := "a/x", language := "Python", stargazers_count := 10 }])
    (by decide) (by decide)
  exact h2.trans (by decide)

end StarTidy
